import Mathlib

/-!
Verification of the HDL static-analysis core of `src/tools.ts`:
`analyzeVerilogTool.execute`, `extractSignals`, `generateSummary`,
`timingAnalysisTool.execute` and `detectCDCIssuesTool.execute`.

Strings are modelled as Lean `String` (a list of characters).  The concrete
JavaScript regular expressions appearing in the source are modelled by
dedicated scanners implementing their leftmost-match semantics; JS `\s` is
modelled by `isJsSpace`, `\w` by `isWordChar` ([A-Za-z0-9_]).  `String.length`
agrees with the JavaScript `length` for the sources considered (no surrogate
pairs).  JavaScript numbers are modelled as rationals; `toFixed(3)` is
modelled by decimal scaling and rounding (exact for the values arising here).
-/

namespace CfTools

/-- Character class of the JavaScript regular-expression escape `\s`. -/
def isJsSpace (c : Char) : Bool :=
  c = ' ' || c = '\t' || c = '\n' || c = '\r' ||
  c.val = 11 || c.val = 12 || c.val = 160 || c.val = 0x1680 ||
  (0x2000 ≤ c.val && c.val ≤ 0x200a) || c.val = 0x2028 || c.val = 0x2029 ||
  c.val = 0x202f || c.val = 0x205f || c.val = 0x3000 || c.val = 0xfeff

/-- Character class of the JavaScript regular-expression escape `\w`. -/
def isWordChar (c : Char) : Bool :=
  ('a' ≤ c && c ≤ 'z') || ('A' ≤ c && c ≤ 'Z') || ('0' ≤ c && c ≤ '9') || c = '_'

/-- Characters NOT matched by the JavaScript regular expression `.`. -/
def isJsLineTerm (c : Char) : Bool :=
  c = '\n' || c = '\r' || c.val = 0x2028 || c.val = 0x2029

/-- Drop a literal head from a character list, returning the remainder
(`none` when the literal is not a prefix). -/
def chopLit? : List Char → List Char → Option (List Char)
  | [], s => some s
  | _, [] => none
  | a :: as, b :: bs => if a = b then chopLit? as bs else none

/-- Does the position-anchored pattern `p` succeed at some start position? -/
def existsSuffix (p : List Char → Bool) : List Char → Bool
  | [] => p []
  | c :: rest => p (c :: rest) || existsSuffix p rest

/-- Substring test: the model of JavaScript `String.prototype.includes`. -/
def containsSub (needle : List Char) (hay : List Char) : Bool :=
  existsSuffix (fun t => (chopLit? needle t).isSome) hay

/-- JavaScript `hay.includes(pat)`. -/
def includesStr (hay pat : String) : Bool := containsSub pat.data hay.data

/-- Split at newline characters: the model of JavaScript `code.split('\n')`. -/
def splitLinesL : List Char → List (List Char)
  | [] => [[]]
  | c :: rest =>
    if c = '\n' then [] :: splitLinesL rest
    else (c :: (splitLinesL rest).headD []) :: (splitLinesL rest).tail

/-- `code.split('\n')` at the `String` level. -/
def splitLines (s : String) : List String := (splitLinesL s.data).map String.mk

/-- First index satisfying a predicate. -/
def findIdxOpt {α : Type} (p : α → Bool) : List α → Option Nat
  | [] => none
  | a :: as => if p a then some 0 else (findIdxOpt p as).map (· + 1)

/-- JavaScript `lines.findIndex(l => l.includes(needle))` (yielding −1 when
no line contains the needle). -/
def jsFindIndexLine (code needle : String) : Int :=
  match findIdxOpt (fun l => includesStr l needle) (splitLines code) with
  | some i => (i : Int)
  | none => -1

/-- Maximal leading run of JS whitespace removed. -/
def dropWs (s : List Char) : List Char := s.dropWhile isJsSpace

inductive Severity
  | error
  | warning
  | info
deriving DecidableEq

/-- One detected problem, as pushed by `analyzeVerilogTool.execute`. -/
structure Issue where
  type : String
  severity : Severity
  line : Option Int
  message : String
  suggestion : String
deriving DecidableEq

/-- Rule 1 of the Verilog rule set (latch inference, `tools.ts` lines 32-42). -/
def latchIssues (code : String) : List Issue :=
  if includesStr code "if" && !includesStr code "else" then
    [{ type := "latch_inference", severity := Severity.warning,
       line := some (jsFindIndexLine code "if" + 1),
       message := "Incomplete if statement may cause latch inference",
       suggestion := "Add an else clause or default assignment before the if statement" }]
  else []

/-- Anchored matcher of `always\s*@\s*\(\s*posedge` at one start position. -/
def matchAAPAt (s : List Char) : Bool :=
  match chopLit? "always".data s with
  | none => false
  | some r =>
    match dropWs r with
    | '@' :: r2 =>
      match dropWs r2 with
      | '(' :: r3 => (chopLit? "posedge".data (dropWs r3)).isSome
      | _ => false
    | _ => false

/-- JavaScript test of `/always\s*@\s*\(\s*posedge|negedge/` from line 45 of
`tools.ts`.  The alternation is at top level, so a bare `negedge` anywhere in
the source also matches. -/
def hasAlwaysFF (code : String) : Bool :=
  existsSuffix matchAAPAt code.data || includesStr code "negedge"

/-- Rule 2 of the Verilog rule set (blocking assignment in sequential logic,
`tools.ts` lines 44-54). -/
def blockingIssues (code : String) : List Issue :=
  if hasAlwaysFF code && includesStr code "=" && !includesStr code "<=" then
    [{ type := "blocking_in_sequential", severity := Severity.error, line := none,
       message := "Using blocking assignments (=) in sequential always block",
       suggestion := "Use non-blocking assignments (<=) for sequential logic" }]
  else []

/-- Scan to the first `)` (failing on a line terminator or end of input):
the lazy capture group of `/always\s*@\s*\((.*?)\)/`. -/
def takeUntilParen : List Char → Option (List Char)
  | [] => none
  | c :: rest =>
    if c = ')' then some []
    else if isJsLineTerm c then none
    else (takeUntilParen rest).map (c :: ·)

/-- Anchored matcher of `/always\s*@\s*\((.*?)\)/` at one start position,
returning the capture. -/
def matchAlwaysCapAt (s : List Char) : Option (List Char) :=
  match chopLit? "always".data s with
  | none => none
  | some r =>
    match dropWs r with
    | '@' :: r2 =>
      match dropWs r2 with
      | '(' :: r3 => takeUntilParen r3
      | _ => none
    | _ => none

/-- Leftmost successful application of an anchored matcher. -/
def firstSome {α : Type} (f : List Char → Option α) : List Char → Option α
  | [] => f []
  | c :: rest =>
    match f (c :: rest) with
    | some v => some v
    | none => firstSome f rest

/-- First match of `code.match(/always\s*@\s*\((.*?)\)/)` (line 57),
returning the captured sensitivity list. -/
def firstAlwaysCapture (code : String) : Option (List Char) :=
  firstSome matchAlwaysCapAt code.data

/-- Comma alternative `\s+,\s+` continued after the leading whitespace run. -/
def sepCommaTail : List Char → Option (List Char)
  | ',' :: d :: r2 => if isJsSpace d then some (dropWs (d :: r2)) else none
  | _ => none

/-- Separator test at one position for the split regex `/\s+or\s+|\s+,\s+/`
(line 63), returning the remainder after the separator. -/
def sepAt? (s : List Char) : Option (List Char) :=
  match s with
  | [] => none
  | c :: rest =>
    if isJsSpace c then
      let r := dropWs (c :: rest)
      match chopLit? "or".data r with
      | some (d :: r2) => if isJsSpace d then some (dropWs (d :: r2)) else sepCommaTail r
      | _ => sepCommaTail r
    else none

/-- JavaScript `String.prototype.split` on `/\s+or\s+|\s+,\s+/`, fuelled by
the input length (each step consumes at least one character). -/
def splitSepFuel : Nat → List Char → List Char → List (List Char)
  | 0, acc, _ => [acc.reverse]
  | _ + 1, acc, [] => [acc.reverse]
  | n + 1, acc, c :: rest =>
    match sepAt? (c :: rest) with
    | some r => acc.reverse :: splitSepFuel n [] r
    | none => splitSepFuel n (c :: acc) rest

/-- `sensitivityList.split(/\s+or\s+|\s+,\s+/)`. -/
def splitSensitivity (sl : List Char) : List String :=
  (splitSepFuel sl.length [] sl).map String.mk

/-- Maximal word-character runs of a line, fuelled by the line length. -/
def wordRunsFuel : Nat → List Char → List (List Char)
  | 0, _ => []
  | _ + 1, [] => []
  | n + 1, c :: rest =>
    if isWordChar c then
      ((c :: rest).takeWhile isWordChar) :: wordRunsFuel n ((c :: rest).dropWhile isWordChar)
    else wordRunsFuel n rest

/-- First character of an identifier: `[a-zA-Z_]`. -/
def isIdentStart (c : Char) : Bool :=
  ('a' ≤ c && c ≤ 'z') || ('A' ≤ c && c ≤ 'Z') || c = '_'

/-- Per-line matches of `line.match(/\b([a-zA-Z_]\w*)\b/g)`: exactly the
maximal word-character runs whose first character is a letter or underscore. -/
def identTokensLine (l : List Char) : List String :=
  (wordRunsFuel l.length l).filterMap fun r =>
    match r with
    | c :: _ => if isIdentStart c then some (String.mk r) else none
    | [] => none

/-- Keyword blocklist of `extractSignals` (`tools.ts` line 428). -/
def verilogKeywords : List String :=
  ["always", "if", "else", "case", "begin", "end", "module", "endmodule"]

/-- Insertion into a JS `Set` materialized as an insertion-ordered list. -/
def addUnique (acc : List String) (x : String) : List String :=
  if acc.contains x then acc else acc ++ [x]

/-- Model of `extractSignals` (`tools.ts` lines 418-436): per line, collect
identifier tokens not in the keyword blocklist into an insertion-ordered set. -/
def extractSignals (code : String) : List String :=
  (splitLines code).foldl
    (fun acc line =>
      (identTokensLine line.data).foldl
        (fun acc2 m => if verilogKeywords.contains m then acc2 else addUnique acc2 m) acc)
    []

/-- Rule 3 of the Verilog rule set (incomplete sensitivity list,
`tools.ts` lines 56-75). -/
def sensitivityIssues (code : String) : List Issue :=
  match firstAlwaysCapture code with
  | none => []
  | some sl =>
    if !containsSub "posedge".data sl && !containsSub "negedge".data sl then
      let used := extractSignals code
      let listed := splitSensitivity sl
      let missing := used.filter fun s => !listed.contains s
      if 0 < missing.length then
        [{ type := "incomplete_sensitivity", severity := Severity.warning, line := none,
           message := "Potentially incomplete sensitivity list. Missing signals: " ++
             String.intercalate ", " missing,
           suggestion := "Use always @(*) for automatic sensitivity list generation" }]
      else []
    else []

/-- Rule 4 of the Verilog rule set (missing case default, lines 78-85). -/
def caseDefaultIssues (code : String) : List Issue :=
  if includesStr code "case" && !includesStr code "default" then
    [{ type := "no_case_default", severity := Severity.warning, line := none,
       message := "Case statement without default clause",
       suggestion := "Add a default clause to handle unexpected values" }]
  else []

/-- Targets of the global matches of `code.match(/(\w+)\s*[<]?=/g)` (line 88):
a maximal word run, optional whitespace, an optional `<`, then `=`; the target
is the word run.  On a failed attempt the scan resumes after the word run
(no later start inside the same run can succeed), and after a match it
resumes after the consumed `=`. -/
def assignTargetsFuel : Nat → List Char → List String
  | 0, _ => []
  | _ + 1, [] => []
  | n + 1, c :: rest =>
    if isWordChar c then
      let run := (c :: rest).takeWhile isWordChar
      let after := (c :: rest).dropWhile isWordChar
      match dropWs after with
      | '<' :: '=' :: r2 => String.mk run :: assignTargetsFuel n r2
      | '=' :: r2 => String.mk run :: assignTargetsFuel n r2
      | _ => assignTargetsFuel n after
    else assignTargetsFuel n rest

/-- Assignment targets of the whole source. -/
def assignTargets (code : String) : List String :=
  assignTargetsFuel code.length code.data

/-- Occurrence count of one target. -/
def countOcc (s : String) (l : List String) : Nat := (l.filter (· == s)).length

/-- First-occurrence deduplication (JS `Map`/`Set` insertion order). -/
def dedupeFirst (l : List String) : List String := l.foldl addUnique []

/-- The issue pushed for a multiply-assigned signal (lines 98-103). -/
def mkMultIssue (s : String) : Issue :=
  { type := "multiple_assignments", severity := Severity.error, line := none,
    message := "Signal '" ++ s ++ "' assigned multiple times",
    suggestion := "Ensure each signal is assigned in only one always block or assign statement" }

/-- Rule 5 of the Verilog rule set (multiple assignments, lines 87-106):
count the assignment targets and report, in first-occurrence order, each
target assigned more than once. -/
def multipleAssignIssues (code : String) : List Issue :=
  (dedupeFirst (assignTargets code)).filterMap fun s =>
    if 1 < countOcc s (assignTargets code) then some (mkMultIssue s) else none

/-- Anchored matcher of `/@\s*\(posedge\s+(\w+)\)/` at one position,
returning the captured signal and the remainder after the match. -/
def cdcSigAt? (s : List Char) : Option (List Char × List Char) :=
  match s with
  | '@' :: r =>
    match dropWs r with
    | '(' :: r2 =>
      match chopLit? "posedge".data r2 with
      | some (d :: r3) =>
        if isJsSpace d then
          let r4 := dropWs (d :: r3)
          match r4.takeWhile isWordChar, r4.dropWhile isWordChar with
          | run@(_ :: _), ')' :: r5 => some (run, r5)
          | _, _ => none
        else none
      | _ => none
    | _ => none
  | _ => none

/-- Global matches of `code.match(/@\s*\(posedge\s+(\w+)\)/g)` (line 109),
as the list of captured clock names. -/
def cdcSignalsFuel : Nat → List Char → List String
  | 0, _ => []
  | _ + 1, [] => []
  | n + 1, c :: rest =>
    match cdcSigAt? (c :: rest) with
    | some (run, r5) => String.mk run :: cdcSignalsFuel n r5
    | none => cdcSignalsFuel n rest

/-- Captured clock names of all edge-triggered headers in the source. -/
def cdcSignals (code : String) : List String :=
  cdcSignalsFuel code.length code.data

/-- Rule 6 of the Verilog rule set (clock-domain crossing, lines 108-120). -/
def cdcIssues (code : String) : List Issue :=
  let sigs := cdcSignals code
  if 1 < sigs.length ∧ 1 < (dedupeFirst sigs).length then
    [{ type := "clock_domain_crossing", severity := Severity.warning, line := none,
       message := "Multiple clock domains detected - potential CDC issues",
       suggestion := "Use proper synchronizers (two-flop) for single-bit CDC, async FIFOs for data" }]
  else []

/-- VHDL rule 1 (latch inference, lines 123-130). -/
def vhdlLatchIssues (code : String) : List Issue :=
  if includesStr code "process" && !includesStr code "else" then
    [{ type := "latch_inference", severity := Severity.warning, line := none,
       message := "Incomplete conditional assignment in process may cause latch",
       suggestion := "Ensure all signals have default assignments or complete if-else chains" }]
  else []

/-- Anchored matcher of `\s+<word>\s+` at one start position. -/
def matchWsWordAt (w : List Char) (s : List Char) : Bool :=
  match s with
  | [] => false
  | c :: rest =>
    isJsSpace c &&
      match chopLit? w (dropWs (c :: rest)) with
      | some (d :: _) => isJsSpace d
      | _ => false

/-- JavaScript test of `/\s+<word>\s+/` anywhere in the source. -/
def hasWsWordWs (code : String) (w : String) : Bool :=
  existsSuffix (matchWsWordAt w.data) code.data

/-- VHDL rule 2 (mixed variable/signal use, lines 132-142). -/
def mixedVariableSignalIssues (code : String) : List Issue :=
  if hasWsWordWs code "variable" && hasWsWordWs code "signal" then
    [{ type := "mixed_variable_signal", severity := Severity.info, line := none,
       message := "Process uses both variables and signals",
       suggestion := "Variables update immediately, signals update at end of process - ensure correct usage" }]
  else []

/-- Cross-language style rule (lines 146-155). -/
def styleIssues (code : String) : List Issue :=
  let longLines := (splitLines code).filter fun l => 120 < l.length
  if 0 < longLines.length then
    [{ type := "style", severity := Severity.info, line := none,
       message := toString longLines.length ++ " lines exceed 120 characters",
       suggestion := "Consider breaking long lines for better readability" }]
  else []

/-- Model of `generateSummary` (`tools.ts` lines 441-457). -/
def generateSummary (issues : List Issue) : String :=
  if issues.length = 0 then "No issues found. Code looks good!"
  else
    let errors := (issues.filter fun i => i.severity == Severity.error).length
    let warnings := (issues.filter fun i => i.severity == Severity.warning).length
    let info := (issues.filter fun i => i.severity == Severity.info).length
    let parts :=
      (if 0 < errors then [toString errors ++ " error(s)"] else []) ++
      (if 0 < warnings then [toString warnings ++ " warning(s)"] else []) ++
      (if 0 < info then [toString info ++ " info"] else [])
    "Found " ++ toString issues.length ++ " issue(s): " ++ String.intercalate ", " parts

inductive Language
  | verilog
  | vhdl
deriving DecidableEq

/-- Detector output (`tools.ts` lines 157-161). -/
structure AnalysisResult where
  totalIssues : Nat
  issues : List Issue
  summary : String
deriving DecidableEq

/-- The Verilog rule set, in source order. -/
def verilogIssues (code : String) : List Issue :=
  latchIssues code ++ blockingIssues code ++ sensitivityIssues code ++
    caseDefaultIssues code ++ multipleAssignIssues code ++ cdcIssues code

/-- The VHDL rule set, in source order. -/
def vhdlIssues (code : String) : List Issue :=
  vhdlLatchIssues code ++ mixedVariableSignalIssues code

/-- Model of `analyzeVerilogTool.execute` (`tools.ts` lines 21-162). -/
def analyze (code : String) (language : Language) : AnalysisResult :=
  let issues :=
    (match language with
     | Language.verilog => verilogIssues code
     | Language.vhdl => vhdlIssues code) ++ styleIssues code
  { totalIssues := issues.length, issues := issues, summary := generateSummary issues }

/-! ### Timing advisory generator (`timingAnalysisTool.execute`, lines 168-263) -/

inductive VType
  | setup
  | hold
  | both
  | unknown
deriving DecidableEq

structure TimingStep where
  step : String
  description : String
  commands : List String
deriving DecidableEq

structure TimingGuidanceResult where
  issue : String
  violationType : VType
  guidance : List TimingStep
  generalTips : List String
deriving DecidableEq

/-- Model of JavaScript `Number.prototype.toFixed(3)`: the value is scaled by
1000 and rounded to the nearest integer, halves toward positive infinity
(exact for the decimal values arising in the claims). -/
def qToFixed3 (q : ℚ) : String :=
  let s := q * 1000
  let n : Int := Int.fdiv (2 * s.num + (s.den : Int)) (2 * (s.den : Int))
  let a := n.natAbs
  (if n < 0 then "-" else "") ++ toString (a / 1000) ++ "." ++
    (if a % 1000 < 10 then "00" else if a % 1000 < 100 then "0" else "") ++
    toString (a % 1000)

/-- Model of JavaScript template interpolation of a number; exact for integral
values (the only values interpolated here). -/
def jsNumberText (q : ℚ) : String :=
  if q.den = 1 then toString q.num else toString q.num ++ " / " ++ toString q.den

/-- The three steps pushed for setup (or both) violations. -/
def setupGuidanceSteps : List TimingStep :=
  [{ step := "Identify Critical Path",
     description := "Run timing analysis to find the longest combinational path",
     commands := ["report_timing -from [all_registers] -to [all_registers] -max_paths 10",
                  "report_timing -delay_type max -path_type full_clock"] },
   { step := "Analyze Path Components",
     description := "Break down the delay into: logic delay, net delay, and cell delay",
     commands := ["report_timing -path full_clock -delay max -nets"] },
   { step := "Optimization Strategies",
     description := "Consider these approaches to reduce critical path delay",
     commands := ["// Add pipeline stages to break up long paths",
                  "// Use faster cells in the critical path",
                  "// Reduce fanout of high-fanout nets",
                  "// Consider multi-cycle path constraints if applicable"] }]

/-- The two steps pushed for hold (or both) violations. -/
def holdGuidanceSteps : List TimingStep :=
  [{ step := "Check Hold Violations",
     description := "Hold violations often indicate clock skew or fast data paths",
     commands := ["report_timing -delay_type min", "report_clock_skew"] },
   { step := "Hold Fixing",
     description := "Tools typically fix hold violations automatically, but you can:",
     commands := ["// Add delay buffers in the data path",
                  "// Balance clock tree to reduce skew",
                  "// Check for inappropriate multi-cycle paths"] }]

/-- The clock-period step pushed for a (truthy) clock frequency. -/
def clockPeriodStep (f : ℚ) : TimingStep :=
  { step := "Clock Period Analysis",
    description := "Target clock period: " ++ qToFixed3 (1000 / f) ++ " ns at " ++
      jsNumberText f ++ " MHz",
    commands := ["create_clock -period " ++ qToFixed3 (1000 / f) ++ " [get_ports clk]"] }

/-- Model of `timingAnalysisTool.execute`.  The clock-period step is guarded
by JavaScript truthiness `if (clockFrequency)`, so a supplied frequency of 0
appends nothing. -/
def timingAnalysisExecute (issue : String) (clockFrequency : Option ℚ)
    (violationType : Option VType) : TimingGuidanceResult :=
  let vt := violationType.getD VType.unknown
  { issue := issue, violationType := vt,
    guidance :=
      (if vt = VType.setup ∨ vt = VType.both then setupGuidanceSteps else []) ++
      (if vt = VType.hold ∨ vt = VType.both then holdGuidanceSteps else []) ++
      (match clockFrequency with
       | some f => if f = 0 then [] else [clockPeriodStep f]
       | none => []),
    generalTips := [
      "Use register-to-register paths for best timing",
      "Avoid long combinational clouds",
      "Balance clock tree carefully",
      "Consider using timing exceptions for known multi-cycle paths",
      "Use synthesis constraints to guide optimization"] }

/-- The guidance list of a call with a supplied frequency. -/
theorem timing_guidance_eq (issue : String) (f : ℚ) (vt : Option VType) :
    (timingAnalysisExecute issue (some f) vt).guidance =
      (if vt.getD VType.unknown = VType.setup ∨ vt.getD VType.unknown = VType.both then
        setupGuidanceSteps else []) ++
      (if vt.getD VType.unknown = VType.hold ∨ vt.getD VType.unknown = VType.both then
        holdGuidanceSteps else []) ++
      (if f = 0 then [] else [clockPeriodStep f]) := rfl

/-! ### CDC advisory generator (`detectCDCIssuesTool.execute`, lines 268-413) -/

inductive SignalType
  | singleBit
  | multiBit
  | bus
  | handshake
deriving DecidableEq

structure CDCRecommendation where
  scenario : String
  solution : String
  verilogExample : String
deriving DecidableEq

structure CDCGuidanceResult where
  description : String
  signalType : Option SignalType
  recommendations : List CDCRecommendation
  generalGuidelines : List String
  toolRecommendations : List String
deriving DecidableEq

/-- Model of `detectCDCIssuesTool.execute`. -/
def detectCDCIssuesExecute (description : String) (signalType : Option SignalType) :
    CDCGuidanceResult :=
  let r1 : List CDCRecommendation :=
    if signalType = some SignalType.singleBit ∨ signalType = none then
      [{ scenario := "Single-bit CDC crossing",
         solution := "Use a two-flop synchronizer",
         verilogExample := "\n// Two-flop synchronizer for single-bit signal\nreg sync_ff1, sync_ff2;\n\nalways @(posedge clk_dest or negedge rst_n) begin\n  if (!rst_n) begin\n    sync_ff1 <= 1'b0;\n    sync_ff2 <= 1'b0;\n  end else begin\n    sync_ff1 <= signal_from_source_domain;\n    sync_ff2 <= sync_ff1;\n  end\nend\n\nassign synced_signal = sync_ff2;" }]
    else []
  let r2 : List CDCRecommendation :=
    if signalType = some SignalType.multiBit ∨ signalType = some SignalType.bus then
      [{ scenario := "Multi-bit bus crossing",
         solution := "Use Gray code encoding or handshake protocol",
         verilogExample := "\n// Gray code counter for CDC\nfunction [N-1:0] bin2gray;\n  input [N-1:0] bin;\n  begin\n    bin2gray = bin ^ (bin >> 1);\n  end\nendfunction\n\n// In source domain\ngray_counter <= bin2gray(binary_counter);\n\n// In destination domain (synchronize each bit)\nalways @(posedge clk_dest) begin\n  gray_sync1 <= gray_counter;\n  gray_sync2 <= gray_sync1;\nend" },
       { scenario := "Data bus with enable signal",
         solution := "Use toggle-based or handshake protocol",
         verilogExample := "\n// Handshake protocol for data bus\n// Source domain\nalways @(posedge clk_src) begin\n  if (data_valid && !req) begin\n    req <= ~req;  // Toggle request\n    data_reg <= data;\n  end\nend\n\n// Destination domain\nalways @(posedge clk_dest) begin\n  req_sync1 <= req;\n  req_sync2 <= req_sync1;\n  req_sync3 <= req_sync2;\n  \n  if (req_sync2 != req_sync3) begin\n    // New data available\n    data_out <= data_reg;\n  end\nend" }]
    else []
  let r3 : List CDCRecommendation :=
    if signalType = some SignalType.handshake then
      [{ scenario := "Handshake-based data transfer",
         solution := "Four-phase handshake with proper synchronization",
         verilogExample := "\n// Four-phase handshake CDC\n// Source domain\nalways @(posedge clk_src) begin\n  if (send_data && !req && ack_synced) begin\n    data_reg <= data_in;\n    req <= 1'b1;\n  end else if (req && ack_synced) begin\n    req <= 1'b0;\n  end\nend\n\n// Sync ack back to source\nalways @(posedge clk_src) begin\n  ack_sync1 <= ack;\n  ack_synced <= ack_sync1;\nend\n\n// Destination domain\nalways @(posedge clk_dest) begin\n  req_sync1 <= req;\n  req_sync2 <= req_sync1;\n  \n  if (req_sync2 && !ack) begin\n    data_out <= data_reg;\n    ack <= 1'b1;\n  end else if (!req_sync2 && ack) begin\n    ack <= 1'b0;\n  end\nend" }]
    else []
  { description := description, signalType := signalType,
    recommendations := r1 ++ r2 ++ r3,
    generalGuidelines := [
      "Never cross multi-bit buses without proper synchronization",
      "Use gray code for counters and pointers",
      "Always use at least two flops for synchronization",
      "Consider metastability recovery time (MTBF)",
      "Use async FIFOs for high-bandwidth data transfers",
      "Verify CDC paths with formal tools (Jasper, VC Formal)"] ,
    toolRecommendations := [
      "Synopsys SpyGlass CDC verification",
      "Cadence JasperGold CDC",
      "Real Intent Meridian CDC"] }

/-! ### Spec-side definitions

These definitions follow the wording of the specification (not the source)
and are used to compare the source's behaviour against the spec's claims. -/

/-- Per-severity issue count. -/
def countSev (s : Severity) (l : List Issue) : Nat :=
  (l.filter fun i => i.severity == s).length

/-- The summary template of spec section 4.1, as a function of the severity
counts alone: a fixed message for zero issues, otherwise per-severity counts
in the fixed order error, warning, info, omitting zero counts, joined by
commas. -/
def renderSummary (e w i : Nat) : String :=
  if e + w + i = 0 then "No issues found. Code looks good!"
  else
    "Found " ++ toString (e + w + i) ++ " issue(s): " ++
      String.intercalate ", "
        ((if 0 < e then [toString e ++ " error(s)"] else []) ++
         (if 0 < w then [toString w ++ " warning(s)"] else []) ++
         (if 0 < i then [toString i ++ " info"] else []))

/-- Claim-side tokenizer for the multiple-assignment rule, following the
spec's wording: an identifier (letter or underscore start, word-character
continuation) followed by optional whitespace, an optional non-blocking
marker `<`, and `=`. -/
def specIdentAssignTargetsFuel : Nat → List Char → List String
  | 0, _ => []
  | _ + 1, [] => []
  | n + 1, c :: rest =>
    if isIdentStart c then
      let run := (c :: rest).takeWhile isWordChar
      let after := (c :: rest).dropWhile isWordChar
      match dropWs after with
      | '<' :: '=' :: r2 => String.mk run :: specIdentAssignTargetsFuel n r2
      | '=' :: r2 => String.mk run :: specIdentAssignTargetsFuel n r2
      | _ => specIdentAssignTargetsFuel n after
    else specIdentAssignTargetsFuel n rest

/-- Claim-side assignment targets of the whole source. -/
def specIdentAssignTargets (code : String) : List String :=
  specIdentAssignTargetsFuel code.length code.data

/-- Claim-side reading of the blocking-assignment trigger: some sensitivity
specification `always @(...)` whose parenthesized content contains the
keyword `posedge` or `negedge`. -/
def specHasEdgeHeader (code : String) : Bool :=
  existsSuffix
    (fun s =>
      match matchAlwaysCapAt s with
      | some cap => containsSub "posedge".data cap || containsSub "negedge".data cap
      | none => false)
    code.data

/-! ### Helper lemmas -/

theorem countSev_append (s : Severity) (l r : List Issue) :
    countSev s (l ++ r) = countSev s l + countSev s r := by
  unfold countSev
  rw [List.filter_append, List.length_append]

theorem length_eq_sevCounts (l : List Issue) :
    l.length =
      countSev Severity.error l + countSev Severity.warning l + countSev Severity.info l := by
  induction l with
  | nil => rfl
  | cons a as ih =>
    cases ha : a.severity <;>
      simp [countSev, List.filter_cons, ha] at ih ⊢ <;> omega

theorem generateSummary_eq (l : List Issue) :
    generateSummary l =
      renderSummary (countSev Severity.error l) (countSev Severity.warning l)
        (countSev Severity.info l) := by
  have h := length_eq_sevCounts l
  simp only [generateSummary, renderSummary, countSev] at h ⊢
  rw [← h]

theorem filter_eq_nil_of_types {l : List Issue} {T t : String}
    (h : ∀ i ∈ l, i.type = T) (hne : T ≠ t) :
    l.filter (fun i => i.type == t) = [] := by
  induction l with
  | nil => rfl
  | cons a as ih =>
    have ha : a.type = T := h a (List.mem_cons_self a as)
    have hf : (a.type == t) = false := by
      rw [ha]
      exact beq_false_of_ne hne
    simp only [List.filter_cons, hf, Bool.false_eq_true, if_false]
    exact ih fun i hi => h i (List.mem_cons_of_mem a hi)

theorem filter_eq_self_of_types {l : List Issue} {t : String}
    (h : ∀ i ∈ l, i.type = t) :
    l.filter (fun i => i.type == t) = l := by
  induction l with
  | nil => rfl
  | cons a as ih =>
    have ha : a.type = t := h a (List.mem_cons_self a as)
    have hf : (a.type == t) = true := by rw [ha]; exact beq_self_eq_true t
    simp only [List.filter_cons, hf, if_true]
    rw [ih fun i hi => h i (List.mem_cons_of_mem a hi)]

theorem latchIssues_types (code : String) :
    ∀ i ∈ latchIssues code, i.type = "latch_inference" := by
  intro i hi
  unfold latchIssues at hi
  split at hi
  · simp at hi; subst hi; rfl
  · simp at hi

theorem blockingIssues_types (code : String) :
    ∀ i ∈ blockingIssues code, i.type = "blocking_in_sequential" := by
  intro i hi
  unfold blockingIssues at hi
  split at hi
  · simp at hi; subst hi; rfl
  · simp at hi

theorem sensitivityIssues_types (code : String) :
    ∀ i ∈ sensitivityIssues code, i.type = "incomplete_sensitivity" := by
  intro i hi
  simp only [sensitivityIssues] at hi
  split at hi
  · simp at hi
  · split at hi
    · split at hi
      · simp at hi; subst hi; rfl
      · simp at hi
    · simp at hi

theorem caseDefaultIssues_types (code : String) :
    ∀ i ∈ caseDefaultIssues code, i.type = "no_case_default" := by
  intro i hi
  unfold caseDefaultIssues at hi
  split at hi
  · simp at hi; subst hi; rfl
  · simp at hi

theorem multipleAssignIssues_mk (code : String) :
    ∀ i ∈ multipleAssignIssues code, ∃ s, i = mkMultIssue s := by
  intro i hi
  simp only [multipleAssignIssues, List.mem_filterMap] at hi
  obtain ⟨s, _, hs⟩ := hi
  split at hs
  · exact ⟨s, (Option.some_inj.mp hs).symm⟩
  · cases hs

theorem multipleAssignIssues_types (code : String) :
    ∀ i ∈ multipleAssignIssues code, i.type = "multiple_assignments" := by
  intro i hi
  obtain ⟨s, rfl⟩ := multipleAssignIssues_mk code i hi
  rfl

theorem cdcIssues_types (code : String) :
    ∀ i ∈ cdcIssues code, i.type = "clock_domain_crossing" := by
  intro i hi
  simp only [cdcIssues] at hi
  split at hi
  · simp at hi; subst hi; rfl
  · simp at hi

theorem styleIssues_types (code : String) :
    ∀ i ∈ styleIssues code, i.type = "style" := by
  intro i hi
  simp only [styleIssues] at hi
  split at hi
  · simp at hi; subst hi; rfl
  · simp at hi

theorem filter_latch_analyze (code : String) :
    (analyze code Language.verilog).issues.filter (fun i => i.type == "latch_inference") =
      latchIssues code := by
  show (verilogIssues code ++ styleIssues code).filter
      (fun i => i.type == "latch_inference") = latchIssues code
  unfold verilogIssues
  simp only [List.filter_append]
  rw [filter_eq_self_of_types (latchIssues_types code),
    filter_eq_nil_of_types (blockingIssues_types code) (by decide),
    filter_eq_nil_of_types (sensitivityIssues_types code) (by decide),
    filter_eq_nil_of_types (caseDefaultIssues_types code) (by decide),
    filter_eq_nil_of_types (multipleAssignIssues_types code) (by decide),
    filter_eq_nil_of_types (cdcIssues_types code) (by decide),
    filter_eq_nil_of_types (styleIssues_types code) (by decide)]
  simp

theorem filter_blocking_analyze (code : String) :
    (analyze code Language.verilog).issues.filter (fun i => i.type == "blocking_in_sequential") =
      blockingIssues code := by
  show (verilogIssues code ++ styleIssues code).filter
      (fun i => i.type == "blocking_in_sequential") = blockingIssues code
  unfold verilogIssues
  simp only [List.filter_append]
  rw [filter_eq_self_of_types (blockingIssues_types code),
    filter_eq_nil_of_types (latchIssues_types code) (by decide),
    filter_eq_nil_of_types (sensitivityIssues_types code) (by decide),
    filter_eq_nil_of_types (caseDefaultIssues_types code) (by decide),
    filter_eq_nil_of_types (multipleAssignIssues_types code) (by decide),
    filter_eq_nil_of_types (cdcIssues_types code) (by decide),
    filter_eq_nil_of_types (styleIssues_types code) (by decide)]
  simp

theorem filter_mult_analyze (code : String) :
    (analyze code Language.verilog).issues.filter (fun i => i.type == "multiple_assignments") =
      multipleAssignIssues code := by
  show (verilogIssues code ++ styleIssues code).filter
      (fun i => i.type == "multiple_assignments") = multipleAssignIssues code
  unfold verilogIssues
  simp only [List.filter_append]
  rw [filter_eq_self_of_types (multipleAssignIssues_types code),
    filter_eq_nil_of_types (latchIssues_types code) (by decide),
    filter_eq_nil_of_types (blockingIssues_types code) (by decide),
    filter_eq_nil_of_types (sensitivityIssues_types code) (by decide),
    filter_eq_nil_of_types (caseDefaultIssues_types code) (by decide),
    filter_eq_nil_of_types (cdcIssues_types code) (by decide),
    filter_eq_nil_of_types (styleIssues_types code) (by decide)]
  simp

theorem filter_cdc_analyze (code : String) :
    (analyze code Language.verilog).issues.filter (fun i => i.type == "clock_domain_crossing") =
      cdcIssues code := by
  show (verilogIssues code ++ styleIssues code).filter
      (fun i => i.type == "clock_domain_crossing") = cdcIssues code
  unfold verilogIssues
  simp only [List.filter_append]
  rw [filter_eq_self_of_types (cdcIssues_types code),
    filter_eq_nil_of_types (latchIssues_types code) (by decide),
    filter_eq_nil_of_types (blockingIssues_types code) (by decide),
    filter_eq_nil_of_types (sensitivityIssues_types code) (by decide),
    filter_eq_nil_of_types (caseDefaultIssues_types code) (by decide),
    filter_eq_nil_of_types (multipleAssignIssues_types code) (by decide),
    filter_eq_nil_of_types (styleIssues_types code) (by decide)]
  simp

theorem splitLinesL_ne_nil (s : List Char) : splitLinesL s ≠ [] := by
  cases s with
  | nil => simp [splitLinesL]
  | cons c rest =>
    unfold splitLinesL
    split <;> simp

theorem headD_cons_tail {α : Type} (d : α) {l : List α} (h : l ≠ []) :
    l.headD d :: l.tail = l := by
  cases l with
  | nil => exact absurd rfl h
  | cons a t => rfl

theorem existsSuffix_here {p : List Char → Bool} {l : List Char} (h : p l = true) :
    existsSuffix p l = true := by
  cases l <;> simp [existsSuffix, h]

theorem existsSuffix_cons_of {p : List Char → Bool} {l : List Char} (c : Char)
    (h : existsSuffix p l = true) : existsSuffix p (c :: l) = true := by
  simp [existsSuffix, h]

theorem splitLinesL_cons (c : Char) (rest : List Char) :
    splitLinesL (c :: rest) =
      if c = '\n' then [] :: splitLinesL rest
      else (c :: (splitLinesL rest).headD []) :: (splitLinesL rest).tail := rfl

theorem splitLinesL_cons_nl {c : Char} (rest : List Char) (hc : c = '\n') :
    splitLinesL (c :: rest) = [] :: splitLinesL rest := by
  rw [splitLinesL_cons, if_pos hc]

theorem splitLinesL_cons_ne {c : Char} (rest : List Char) (hc : ¬ c = '\n') :
    splitLinesL (c :: rest) = (c :: (splitLinesL rest).headD []) :: (splitLinesL rest).tail := by
  rw [splitLinesL_cons, if_neg hc]

theorem containsSub_nil (l : List Char) : containsSub [] l = true := by
  cases l <;> simp [containsSub, existsSuffix, chopLit?]

theorem chopLit_headD : ∀ needle : List Char, '\n' ∉ needle →
    ∀ s : List Char, (chopLit? needle s).isSome = true →
      (chopLit? needle ((splitLinesL s).headD [])).isSome = true := by
  intro needle
  induction needle with
  | nil => intro _ s _; simp [chopLit?]
  | cons a as ih =>
    intro hn s h
    cases s with
    | nil => simp [chopLit?] at h
    | cons c rest =>
      simp only [chopLit?] at h
      by_cases hac : a = c
      · subst hac
        rw [if_pos rfl] at h
        have hcn : ¬ a = '\n' := fun he => hn (he ▸ List.mem_cons_self a as)
        rw [splitLinesL_cons_ne rest hcn, List.headD_cons]
        simp only [chopLit?, if_pos rfl]
        exact ih (fun hm => hn (List.mem_cons_of_mem a hm)) rest h
      · rw [if_neg hac] at h
        simp at h

theorem containsSub_line : ∀ needle : List Char, '\n' ∉ needle →
    ∀ s : List Char, containsSub needle s = true →
      ∃ l ∈ splitLinesL s, containsSub needle l = true := by
  intro needle hn s
  induction s with
  | nil =>
    intro h
    exact ⟨[], by simp [splitLinesL], h⟩
  | cons c rest ih =>
    intro h
    rw [containsSub] at h
    simp only [existsSuffix, Bool.or_eq_true] at h
    rcases h with hp | hex
    · by_cases hc : c = '\n'
      · cases needle with
        | nil =>
          refine ⟨(splitLinesL (c :: rest)).headD [], ?_, containsSub_nil _⟩
          have hne := splitLinesL_ne_nil (c :: rest)
          rw [← headD_cons_tail ([] : List Char) hne]
          exact List.mem_cons_self _ _
        | cons a as =>
          exfalso
          simp only [chopLit?] at hp
          by_cases hac : a = c
          · exact hn (List.mem_cons.mpr (Or.inl (hac.trans hc).symm))
          · rw [if_neg hac] at hp
            simp at hp
      · have hh := chopLit_headD needle hn (c :: rest) hp
        refine ⟨(splitLinesL (c :: rest)).headD [], ?_, existsSuffix_here hh⟩
        have hne := splitLinesL_ne_nil (c :: rest)
        rw [← headD_cons_tail ([] : List Char) hne]
        exact List.mem_cons_self _ _
    · obtain ⟨l, hl, hcl⟩ := ih hex
      by_cases hc : c = '\n'
      · refine ⟨l, ?_, hcl⟩
        rw [splitLinesL_cons_nl rest hc]
        exact List.mem_cons_of_mem _ hl
      · have hne := splitLinesL_ne_nil rest
        rw [← headD_cons_tail ([] : List Char) hne] at hl
        rcases List.mem_cons.mp hl with rfl | hl2
        · refine ⟨c :: (splitLinesL rest).headD [], ?_, existsSuffix_cons_of c hcl⟩
          rw [splitLinesL_cons_ne rest hc]
          exact List.mem_cons_self _ _
        · refine ⟨l, ?_, hcl⟩
          rw [splitLinesL_cons_ne rest hc]
          exact List.mem_cons_of_mem _ hl2

theorem findIdxOpt_isSome {α : Type} {p : α → Bool} {l : List α}
    (h : ∃ x ∈ l, p x = true) : ∃ i, findIdxOpt p l = some i := by
  induction l with
  | nil => simp at h
  | cons a as ih =>
    by_cases hp : p a = true
    · exact ⟨0, by simp [findIdxOpt, hp]⟩
    · obtain ⟨x, hx, hpx⟩ := h
      rcases List.mem_cons.mp hx with rfl | hx'
      · exact absurd hpx hp
      · obtain ⟨i, hi⟩ := ih ⟨x, hx', hpx⟩
        exact ⟨i + 1, by simp [findIdxOpt, hp, hi]⟩

theorem includes_findIdx (code needle : String) (hn : '\n' ∉ needle.data)
    (h : includesStr code needle = true) :
    ∃ i, findIdxOpt (fun l => includesStr l needle) (splitLines code) = some i := by
  obtain ⟨l, hl, hcl⟩ := containsSub_line needle.data hn code.data h
  apply findIdxOpt_isSome
  exact ⟨String.mk l, List.mem_map_of_mem String.mk hl, hcl⟩

/-! ### Claim theorems -/

/-- C2: for every input string and language, `analyze` is a total function
(the embedding never raises), and on the empty Verilog source it returns the
result with zero issues, the empty issue list and the fixed no-issue
summary. -/
theorem analyze_total_empty_ok :
    (∀ (code : String) (language : Language), ∃ r : AnalysisResult, analyze code language = r) ∧
    analyze "" Language.verilog =
      { totalIssues := 0, issues := [], summary := "No issues found. Code looks good!" } :=
  ⟨fun _ _ => ⟨_, rfl⟩, by decide⟩

/-- C3: for every source and language, `totalIssues` equals the length of the
issue sequence, and the summary is the function of the issues' severity
counts given by the fixed template (error, then warning, then info, zero
counts omitted). -/
theorem analysis_result_invariants (code : String) (language : Language) :
    (analyze code language).totalIssues = (analyze code language).issues.length ∧
    (analyze code language).summary =
      renderSummary (countSev Severity.error (analyze code language).issues)
        (countSev Severity.warning (analyze code language).issues)
        (countSev Severity.info (analyze code language).issues) :=
  ⟨rfl, generateSummary_eq _⟩

/-- C4: on the four-line example source, the Verilog analysis reports a
latch-inference warning at line 2, an incomplete-sensitivity warning naming
`out` among the missing signals, and no blocking-in-sequential issue. -/
theorem example_end_to_end_eval :
    ((analyze "always @(a or b) begin\n  if (a)\n    out = b;\nend" Language.verilog).issues.any
        fun i => i.type == "latch_inference" && i.severity == Severity.warning &&
          i.line == some 2) = true ∧
    ((analyze "always @(a or b) begin\n  if (a)\n    out = b;\nend" Language.verilog).issues.any
        fun i => i.type == "incomplete_sensitivity" && i.severity == Severity.warning &&
          i.message == "Potentially incomplete sensitivity list. Missing signals: or, out") = true ∧
    ((analyze "always @(a or b) begin\n  if (a)\n    out = b;\nend" Language.verilog).issues.all
        fun i => i.type != "blocking_in_sequential") = true := by
  refine ⟨?_, ?_, ?_⟩ <;> decide

/-- C9: for every description, the CDC guidance for `single-bit` and for an
omitted signal type both consist of exactly the single two-flop-synchronizer
recommendation with its example, together with the same fixed
generalGuidelines and toolRecommendations lists. -/
theorem cdc_guidance_default_single_bit (d : String) :
    ((detectCDCIssuesExecute d (some SignalType.singleBit)).recommendations =
      [{ scenario := "Single-bit CDC crossing",
         solution := "Use a two-flop synchronizer",
         verilogExample := "\n// Two-flop synchronizer for single-bit signal\nreg sync_ff1, sync_ff2;\n\nalways @(posedge clk_dest or negedge rst_n) begin\n  if (!rst_n) begin\n    sync_ff1 <= 1'b0;\n    sync_ff2 <= 1'b0;\n  end else begin\n    sync_ff1 <= signal_from_source_domain;\n    sync_ff2 <= sync_ff1;\n  end\nend\n\nassign synced_signal = sync_ff2;" }]) ∧
    (detectCDCIssuesExecute d none).recommendations =
        (detectCDCIssuesExecute d (some SignalType.singleBit)).recommendations ∧
    ((detectCDCIssuesExecute d (some SignalType.singleBit)).generalGuidelines =
      ["Never cross multi-bit buses without proper synchronization",
       "Use gray code for counters and pointers",
       "Always use at least two flops for synchronization",
       "Consider metastability recovery time (MTBF)",
       "Use async FIFOs for high-bandwidth data transfers",
       "Verify CDC paths with formal tools (Jasper, VC Formal)"]) ∧
    (detectCDCIssuesExecute d none).generalGuidelines =
        (detectCDCIssuesExecute d (some SignalType.singleBit)).generalGuidelines ∧
    ((detectCDCIssuesExecute d (some SignalType.singleBit)).toolRecommendations =
      ["Synopsys SpyGlass CDC verification",
       "Cadence JasperGold CDC",
       "Real Intent Meridian CDC"]) ∧
    (detectCDCIssuesExecute d none).toolRecommendations =
        (detectCDCIssuesExecute d (some SignalType.singleBit)).toolRecommendations :=
  ⟨rfl, rfl, rfl, rfl, rfl, rfl⟩

theorem countSev_error_vhdlLatch (code : String) :
    countSev Severity.error (vhdlLatchIssues code) = 0 := by
  unfold vhdlLatchIssues
  split <;> rfl

theorem countSev_error_mixed (code : String) :
    countSev Severity.error (mixedVariableSignalIssues code) = 0 := by
  unfold mixedVariableSignalIssues
  split <;> rfl

theorem countSev_error_style (code : String) :
    countSev Severity.error (styleIssues code) = 0 := by
  simp only [styleIssues]
  split <;> rfl

/-- C10: a VHDL analysis only ever produces a latch-inference warning, a
mixed-variable-signal info or a style info; no error severity occurs, and
the summary renders with an error count of zero (so no error part). -/
theorem vhdl_no_error_severity (code : String) :
    ((analyze code Language.vhdl).issues.all fun i =>
        (i.type == "latch_inference" && i.severity == Severity.warning) ||
        (i.type == "mixed_variable_signal" && i.severity == Severity.info) ||
        (i.type == "style" && i.severity == Severity.info)) = true ∧
    countSev Severity.error (analyze code Language.vhdl).issues = 0 ∧
    (analyze code Language.vhdl).summary =
      renderSummary 0 (countSev Severity.warning (analyze code Language.vhdl).issues)
        (countSev Severity.info (analyze code Language.vhdl).issues) := by
  have h0 : countSev Severity.error (analyze code Language.vhdl).issues = 0 := by
    show countSev Severity.error
        ((vhdlLatchIssues code ++ mixedVariableSignalIssues code) ++ styleIssues code) = 0
    rw [countSev_append, countSev_append, countSev_error_vhdlLatch, countSev_error_mixed,
      countSev_error_style]
  refine ⟨?_, h0, ?_⟩
  · show ((vhdlLatchIssues code ++ mixedVariableSignalIssues code) ++ styleIssues code).all _ = true
    rw [List.all_append, List.all_append]
    simp only [Bool.and_eq_true]
    refine ⟨⟨?_, ?_⟩, ?_⟩
    · unfold vhdlLatchIssues; split <;> rfl
    · unfold mixedVariableSignalIssues; split <;> rfl
    · simp only [styleIssues]; split <;> rfl
  · have h1 : (analyze code Language.vhdl).summary =
        renderSummary (countSev Severity.error (analyze code Language.vhdl).issues)
          (countSev Severity.warning (analyze code Language.vhdl).issues)
          (countSev Severity.info (analyze code Language.vhdl).issues) := generateSummary_eq _
    rw [h1, h0]

/-- C1: for Verilog source containing `if` and no `else`, exactly one
latch-inference warning is produced, whose line is one more than the index of
the first source line containing `if`; with both `if` and `else` present, no
latch-inference issue is produced. -/
theorem latch_inference_exactness (code : String) :
    (includesStr code "if" = true → includesStr code "else" = false →
      ∃ i : Nat,
        findIdxOpt (fun l => includesStr l "if") (splitLines code) = some i ∧
        (analyze code Language.verilog).issues.filter (fun is => is.type == "latch_inference") =
          [{ type := "latch_inference", severity := Severity.warning,
             line := some ((i : Int) + 1),
             message := "Incomplete if statement may cause latch inference",
             suggestion := "Add an else clause or default assignment before the if statement" }]) ∧
    (includesStr code "if" = true → includesStr code "else" = true →
      (analyze code Language.verilog).issues.filter
        (fun is => is.type == "latch_inference") = []) := by
  constructor
  · intro h1 h2
    obtain ⟨i, hi⟩ := includes_findIdx code "if" (by decide) h1
    refine ⟨i, hi, ?_⟩
    rw [filter_latch_analyze]
    unfold latchIssues
    rw [if_pos (by rw [h1, h2]; rfl)]
    unfold jsFindIndexLine
    rw [hi]
  · intro h1 h2
    rw [filter_latch_analyze]
    unfold latchIssues
    rw [if_neg (by rw [h1, h2]; decide)]

/-- Witness for C1 at a concrete one-line source. -/
theorem latch_inference_exactness_witness :
    includesStr "if (x) y = 1;" "if" = true ∧
    includesStr "if (x) y = 1;" "else" = false ∧
    ∃ i : Nat,
      findIdxOpt (fun l => includesStr l "if") (splitLines "if (x) y = 1;") = some i ∧
      (analyze "if (x) y = 1;" Language.verilog).issues.filter
          (fun is => is.type == "latch_inference") =
        [{ type := "latch_inference", severity := Severity.warning,
           line := some ((i : Int) + 1),
           message := "Incomplete if statement may cause latch inference",
           suggestion := "Add an else clause or default assignment before the if statement" }] :=
  ⟨by decide, by decide,
    (latch_inference_exactness "if (x) y = 1;").1 (by decide) (by decide)⟩

/-- C5 counterexample: the source `"negedge\nw = v"` has no sensitivity
specification at all, yet the analyzer emits the blocking-in-sequential
error, because the regex alternation `always\s*@\s*\(\s*posedge|negedge`
matches a bare `negedge` anywhere in the file. -/
theorem blocking_negedge_counterexample :
    ((analyze "negedge\nw = v" Language.verilog).issues.filter
        (fun i => i.type == "blocking_in_sequential") =
      [{ type := "blocking_in_sequential", severity := Severity.error, line := none,
         message := "Using blocking assignments (=) in sequential always block",
         suggestion := "Use non-blocking assignments (<=) for sequential logic" }]) ∧
    specHasEdgeHeader "negedge\nw = v" = false := by
  refine ⟨?_, ?_⟩ <;> decide

/-- C5 amended: the blocking-in-sequential error (severity error, at most one
per call) is emitted exactly when the source matches the textual pattern
`always\s*@\s*\(\s*posedge` or contains `negedge` anywhere (not necessarily
inside a sensitivity specification), and contains `=` while containing no
`<=`. -/
theorem blocking_in_sequential_exactness (code : String) :
    (analyze code Language.verilog).issues.filter (fun i => i.type == "blocking_in_sequential") =
      (if hasAlwaysFF code && includesStr code "=" && !includesStr code "<=" then
        [{ type := "blocking_in_sequential", severity := Severity.error, line := none,
           message := "Using blocking assignments (=) in sequential always block",
           suggestion := "Use non-blocking assignments (<=) for sequential logic" }]
      else []) := by
  rw [filter_blocking_analyze]
  rfl

theorem foldl_addUnique_length (l : List String) :
    ∀ acc : List String, (l.foldl addUnique acc).length ≤ acc.length + l.length := by
  induction l with
  | nil => intro acc; simp
  | cons a as ih =>
    intro acc
    have h1 : (addUnique acc a).length ≤ acc.length + 1 := by
      unfold addUnique
      split
      · omega
      · simp
    have h2 := ih (addUnique acc a)
    simp only [List.foldl_cons, List.length_cons]
    omega

theorem dedupeFirst_length_le (l : List String) : (dedupeFirst l).length ≤ l.length := by
  simpa using foldl_addUnique_length l []

/-- C7: a clock-domain-crossing warning, with the fixed signal-free message,
is emitted exactly when at least two distinct clock names occur among the
collected `posedge` headers, and at most one such warning is emitted per
call; in particular the two-clock example yields exactly one. -/
theorem cdc_warning_exactness :
    (∀ code : String,
      (analyze code Language.verilog).issues.filter (fun i => i.type == "clock_domain_crossing") =
        (if 2 ≤ (dedupeFirst (cdcSignals code)).length then
          [{ type := "clock_domain_crossing", severity := Severity.warning, line := none,
             message := "Multiple clock domains detected - potential CDC issues",
             suggestion := "Use proper synchronizers (two-flop) for single-bit CDC, async FIFOs for data" }]
        else [])) ∧
    (analyze "always @(posedge clk1) begin end\nalways @(posedge clk2) begin end"
        Language.verilog).issues.filter (fun i => i.type == "clock_domain_crossing") =
      [{ type := "clock_domain_crossing", severity := Severity.warning, line := none,
         message := "Multiple clock domains detected - potential CDC issues",
         suggestion := "Use proper synchronizers (two-flop) for single-bit CDC, async FIFOs for data" }] := by
  constructor
  · intro code
    rw [filter_cdc_analyze]
    simp only [cdcIssues]
    have hle := dedupeFirst_length_le (cdcSignals code)
    have hiff : (1 < (cdcSignals code).length ∧ 1 < (dedupeFirst (cdcSignals code)).length) ↔
        2 ≤ (dedupeFirst (cdcSignals code)).length := by
      constructor
      · exact fun h => h.2
      · intro h
        exact ⟨by omega, h⟩
    rw [if_congr hiff rfl rfl]
  · decide

theorem mem_foldl_addUnique (s : String) (l : List String) :
    ∀ acc : List String, s ∈ l.foldl addUnique acc ↔ s ∈ acc ∨ s ∈ l := by
  induction l with
  | nil => intro acc; simp
  | cons a as ih =>
    intro acc
    rw [List.foldl_cons, ih]
    constructor
    · rintro (h | h)
      · unfold addUnique at h
        split at h
        · exact Or.inl h
        · rw [List.mem_append] at h
          rcases h with h | h
          · exact Or.inl h
          · simp at h
            subst h
            exact Or.inr (List.mem_cons_self _ _)
      · exact Or.inr (List.mem_cons_of_mem _ h)
    · rintro (h | h)
      · left
        unfold addUnique
        split
        · exact h
        · exact List.mem_append.mpr (Or.inl h)
      · rcases List.mem_cons.mp h with rfl | h2
        · left
          unfold addUnique
          split
          · next hc => exact List.elem_iff.mp hc
          · exact List.mem_append.mpr (Or.inr (List.mem_singleton.mpr rfl))
        · exact Or.inr h2

theorem mem_dedupeFirst {s : String} {l : List String} : s ∈ dedupeFirst l ↔ s ∈ l := by
  unfold dedupeFirst
  rw [mem_foldl_addUnique]
  simp

theorem mem_of_countOcc_pos {s : String} {l : List String} (h : 0 < countOcc s l) : s ∈ l := by
  induction l with
  | nil => simp [countOcc] at h
  | cons a as ih =>
    by_cases has : (a == s) = true
    · exact List.mem_cons.mpr (Or.inl (beq_iff_eq.mp has).symm)
    · have : countOcc s (a :: as) = countOcc s as := by
        unfold countOcc
        simp [List.filter_cons, has]
      rw [this] at h
      exact List.mem_cons_of_mem _ (ih h)

theorem string_data_append (a b : String) : (a ++ b).data = a.data ++ b.data := by
  cases a
  cases b
  rfl

theorem string_data_inj {a b : String} (h : a.data = b.data) : a = b :=
  congrArg String.mk h

theorem mkMultIssue_inj {a b : String} (h : mkMultIssue a = mkMultIssue b) : a = b := by
  have hm := congrArg Issue.message h
  simp only [mkMultIssue] at hm
  have hd := congrArg String.data hm
  rw [string_data_append, string_data_append, string_data_append, string_data_append,
    List.append_assoc, List.append_assoc] at hd
  exact string_data_inj (List.append_cancel_right (List.append_cancel_left hd))

/-- C8 counterexample: on `"1 = 2\n1 = 3"` the analyzer reports the digit-led
token `1` as multiply assigned, although the source assigns no identifier at
all (the tokenizer uses `\w+`, not an identifier pattern). -/
theorem multiple_assignments_counterexample :
    ((analyze "1 = 2\n1 = 3" Language.verilog).issues.filter
        (fun i => i.type == "multiple_assignments") = [mkMultIssue "1"]) ∧
    specIdentAssignTargets "1 = 2\n1 = 3" = [] := by
  refine ⟨?_, ?_⟩ <;> decide

/-- C8 amended: the analyzer tokenizes assignment-like expressions as a word
token (`\w+`, possibly digit-led) followed by optional whitespace, an
optional `<` and `=`, groups them by target token, and emits exactly one
multiple-assignments error naming each token assigned more than once
anywhere in the file. -/
theorem multiple_assignments_exactness (code : String) :
    ((analyze code Language.verilog).issues.filter (fun i => i.type == "multiple_assignments") =
      (dedupeFirst (assignTargets code)).filterMap
        (fun s => if 1 < countOcc s (assignTargets code) then some (mkMultIssue s) else none)) ∧
    ∀ s : String,
      (mkMultIssue s ∈ (analyze code Language.verilog).issues ↔
        1 < countOcc s (assignTargets code)) := by
  constructor
  · rw [filter_mult_analyze]
    rfl
  · intro s
    constructor
    · intro hmem
      have hmem2 : mkMultIssue s ∈ (analyze code Language.verilog).issues.filter
          (fun i => i.type == "multiple_assignments") :=
        List.mem_filter.mpr ⟨hmem, rfl⟩
      rw [filter_mult_analyze] at hmem2
      simp only [multipleAssignIssues, List.mem_filterMap] at hmem2
      obtain ⟨t, _, hsome⟩ := hmem2
      split at hsome
      · next hcond =>
        have ht := mkMultIssue_inj (Option.some_inj.mp hsome)
        exact ht ▸ hcond
      · cases hsome
    · intro hcnt
      have hmem : mkMultIssue s ∈ multipleAssignIssues code := by
        simp only [multipleAssignIssues, List.mem_filterMap]
        refine ⟨s, ?_, by rw [if_pos hcnt]⟩
        exact mem_dedupeFirst.mpr (mem_of_countOcc_pos (by omega))
      have hmem2 : mkMultIssue s ∈ (analyze code Language.verilog).issues.filter
          (fun i => i.type == "multiple_assignments") := by
        rw [filter_mult_analyze]
        exact hmem
      exact (List.mem_filter.mp hmem2).1

/-- C6 counterexample: a supplied clock frequency of 0 is falsy in
JavaScript, so no clock-period step and no `create_clock` command is
produced at all (rather than a defined division result being embedded). -/
theorem timing_zero_frequency_counterexample :
    (timingAnalysisExecute "x" (some 0) (some VType.setup)).guidance.filter
        (fun g => g.step == "Clock Period Analysis") = [] ∧
    ((timingAnalysisExecute "x" (some 0) (some VType.setup)).guidance.all
        fun g => g.commands.all fun c => !includesStr c "create_clock") = true := by
  refine ⟨?_, ?_⟩ <;> decide

/-- C6 amended: for every supplied nonzero clock frequency (negative values
included) the result appends a clock-period step computing 1000 / f,
formatted to three decimal places and embedded into one `create_clock`
command string. -/
theorem timing_clock_period_step (issue : String) (f : ℚ) (vt : Option VType)
    (hf : f ≠ 0) :
    ∃ g ∈ (timingAnalysisExecute issue (some f) vt).guidance,
      g.step = "Clock Period Analysis" ∧
      g.commands = ["create_clock -period " ++ qToFixed3 (1000 / f) ++ " [get_ports clk]"] := by
  refine ⟨clockPeriodStep f, ?_, rfl, rfl⟩
  rw [timing_guidance_eq, if_neg hf]
  exact List.mem_append_right _ (List.mem_singleton.mpr rfl)

/-- Witness for the amended C6 claim at 100 MHz: the period renders as
10.000 ns. -/
theorem timing_clock_period_step_witness :
    (100 : ℚ) ≠ 0 ∧
    ∃ g ∈ (timingAnalysisExecute "x" (some 100) (some VType.setup)).guidance,
      g.step = "Clock Period Analysis" ∧
      g.commands = ["create_clock -period 10.000 [get_ports clk]"] := by
  refine ⟨by norm_num, ?_⟩
  obtain ⟨g, hg, h1, h2⟩ := timing_clock_period_step "x" 100 (some VType.setup) (by norm_num)
  refine ⟨g, hg, h1, ?_⟩
  rw [h2]
  have e1 : (1000 : ℚ) / 100 = 10 := by norm_num
  rw [e1]
  have e2 : (10 : ℚ) * 1000 = 10000 := by norm_num
  simp only [qToFixed3, e2, Rat.num_ofNat, Rat.den_ofNat]
  decide

end CfTools
